import Mathlib

/-!
Shallow embedding of the Packit 3D-object parsing core
(`src/unnamed/part_000`, the current revision of `packit.js`; the STL part is
byte-for-byte the same logic as the older `src/index.js`).

Conventions of the embedding:

* JavaScript strings are Lean `String`s; `String.split(sep)` for a one-character
  separator is modelled by `jsSplit`, which reproduces JS semantics exactly
  (empty fields kept, `"" → [""]`).  All inputs of interest are ASCII, where JS
  UTF-16 code-unit indexing and Lean `Char` indexing agree.
* A JS `ArrayBuffer` is a `List Nat` of bytes.  `ArrayBuffer.slice` clamps, which
  `jsSlice` reproduces.  Constructing a `Uint32Array`/`Float32Array` view over a
  buffer whose byte length is not divisible by 4 throws a `RangeError`; the
  embedding checks the length explicitly at each construction site.
* A cell of the `Float32Array triangleData` is a `MeshVal`: its value is either
  the little-endian 32-bit pattern of the 4 source bytes (`MeshVal.word`, binary
  path; the zero-initialised cell is `word 0`, the bit pattern of `0.0`), the
  source token assigned to it (`MeshVal.tok`, ASCII path; the actual float is
  `Number(tok)`, so equal tokens give equal floats), or the NaN produced by
  assigning `undefined` / reading out of bounds (`MeshVal.nan`).
* Writing past the end of a typed array is silently ignored in JS; `applyWrite`
  reproduces this.  Reading past the end yields `undefined`.
* A thrown-and-caught JS exception is `Except.error ()`.
* `setTimeout(runBatch(), TIMEOUT_CONSTANT)` calls `runBatch()` immediately and
  hands its result (`undefined`) to `setTimeout`; the scheduled evaluation of
  `undefined` has no observable effect, so the embedding is the direct
  recursive call.
* The host-visible output of a parse is the list of `viewer.display(...)` calls
  (the only callback the parser ever invokes); batch executions are also traced
  as events so that ordering claims can be stated.
-/

/-- JS `String.prototype.split` with a one-character separator, on char lists:
every occurrence of the separator starts a new field and empty fields are kept. -/
def splitCharList (sep : Char) : List Char → List (List Char)
  | [] => [[]]
  | c :: rest =>
    let r := splitCharList sep rest
    if c = sep then [] :: r
    else
      match r with
      | g :: gs => (c :: g) :: gs
      | [] => [[c]]

/-- JS `s.split(sep)` for a one-character separator. -/
def jsSplit (sep : Char) (s : String) : List String :=
  (splitCharList sep s.data).map String.mk

/-- JS array read `v[i]` where `i` is an `Int` (a negative or out-of-range
index yields `undefined`, modelled as `none`). -/
def jsIdx (v : List String) (i : Int) : Option String :=
  if 0 ≤ i then v[i.toNat]? else none

/-- JS `ArrayBuffer.prototype.slice(a, b)` for `0 ≤ a ≤ b`: both bounds clamp
to the buffer length. -/
def jsSlice (arr : List Nat) (a b : Nat) : List Nat :=
  (arr.take b).drop a

/-- The byte list of a buffer view reinterpreted as little-endian 32-bit words
(`new Uint32Array(buffer)` / the bit patterns of `new Float32Array(buffer)`).
Callers check `length % 4 = 0` first, as the constructors throw otherwise. -/
def leWords : List Nat → List Nat
  | b0 :: b1 :: b2 :: b3 :: rest => (b0 + 256 * b1 + 65536 * b2 + 16777216 * b3) :: leWords rest
  | _ => []

/-- The little-endian 32-bit word formed by the four bytes of `arr` starting at
position `p` (missing bytes read as 0); used to state what the parser reads. -/
def w32 (arr : List Nat) (p : Nat) : Nat :=
  arr.getD p 0 + 256 * arr.getD (p + 1) 0 + 65536 * arr.getD (p + 2) 0
    + 16777216 * arr.getD (p + 3) 0

/-- One cell of the `Float32Array triangleData` (see the header comment). -/
inductive MeshVal where
  | word (w : Nat)
  | tok (s : String)
  | nan
deriving DecidableEq, Repr

/-- Value stored by `triangleData[j] = v` when `v` is a string read from a
vertex line (`undefined`, i.e. `none`, stores NaN). -/
def mkTok : Option String → MeshVal
  | some s => .tok s
  | none => .nan

/-- Value stored by `triangleData[j] = triangle[k]` in the binary path. -/
def mkW : Option Nat → MeshVal
  | some w => .word w
  | none => .nan

/-- `triangleData[j] = v`: a typed-array store; out-of-range stores are
silently dropped. -/
def applyWrite (buf : List MeshVal) (wv : Nat × MeshVal) : List MeshVal :=
  if wv.1 < buf.length then buf.set wv.1 wv.2 else buf

/-- `PER_BATCH` (named `TRIANGLES_PER_BATCH` in `src/index.js`). -/
def PER_BATCH : Nat := 500

/-- `for (let i = 0; i < count; i++) { getTriangle(base + i); }`:
runs `getTri` on `base, base+1, …, base+count-1`, threading the triangle
buffer and recording the processed indices; a thrown exception aborts. -/
def batchLoop (getTri : Nat → Except Unit (List (Nat × MeshVal))) :
    Nat → Nat → List MeshVal → Except Unit (List Nat × List MeshVal)
  | _, 0, buf => .ok ([], buf)
  | base, count + 1, buf =>
    match getTri base with
    | .error e => .error e
    | .ok ws =>
      match batchLoop getTri (base + 1) count (ws.foldl applyWrite buf) with
      | .error e => .error e
      | .ok (idxs, buf1) => .ok (base :: idxs, buf1)

/-- Host-visible trace of an STL parse: each executed batch loop (with the
triangle indices it processed) and each `viewer.display(triangleData)` call. -/
inductive StlEv where
  | batch (indices : List Nat)
  | display (buffer : List MeshVal)
deriving DecidableEq, Repr

/-- The last `runBatch` call (`batchCount + 1 ≥ batchLimit` after the
increment): one full `PER_BATCH` loop, the `remainder` loop at the incremented
counter, then the single `viewer.display(triangleData)` call. -/
def runBatchLast (getTri : Nat → Except Unit (List (Nat × MeshVal)))
    (remainder batchCount : Nat) (buf : List MeshVal) : Except Unit (List StlEv) :=
  match batchLoop getTri (PER_BATCH * batchCount) PER_BATCH buf with
  | .error e => .error e
  | .ok (idxs, buf1) =>
    match batchLoop getTri (PER_BATCH * (batchCount + 1)) remainder buf1 with
    | .error e => .error e
    | .ok (ridxs, buf2) => .ok [.batch idxs, .batch ridxs, .display buf2]

/-- `runBatch` of both STL sub-parsers.  The source recursion is controlled by
`batchCount++ < batchLimit`; here the pair is encoded as `batchCount` plus the
structurally decreasing `rb = batchLimit - batchCount`, so that the source's
continue condition `batchCount + 1 < batchLimit` is exactly `2 ≤ rb`.  Each
call runs one full `PER_BATCH` loop; the last call finishes via
`runBatchLast`, the only point at which the buffer is handed over. -/
def runBatchAux (getTri : Nat → Except Unit (List (Nat × MeshVal))) (remainder : Nat) :
    Nat → Nat → List MeshVal → Except Unit (List StlEv)
  | 0, batchCount, buf => runBatchLast getTri remainder batchCount buf
  | 1, batchCount, buf => runBatchLast getTri remainder batchCount buf
  | r + 2, batchCount, buf =>
    match batchLoop getTri (PER_BATCH * batchCount) PER_BATCH buf with
    | .error e => .error e
    | .ok (idxs, buf1) =>
      match runBatchAux getTri remainder (r + 1) (batchCount + 1) buf1 with
      | .error e => .error e
      | .ok evs => .ok (.batch idxs :: evs)

/-- `getTriangle(index)` of the ASCII STL sub-parser: reads the three vertex
lines at `3+7i, 4+7i, 5+7i` (an `undefined` line makes `.split` throw) and
performs the nine `triangleData` stores exactly as written in the source —
including the source's crossed uses of `v2`/`v3` lengths at offsets 5 and 6. -/
def asciiGetTriangle (splice : List String) (index : Nat) :
    Except Unit (List (Nat × MeshVal)) :=
  match splice[3 + 7 * index]?, splice[4 + 7 * index]?, splice[5 + 7 * index]? with
  | some l1, some l2, some l3 =>
    let v1 := jsSplit ' ' l1
    let v2 := jsSplit ' ' l2
    let v3 := jsSplit ' ' l3
    .ok [(9 * index, mkTok (jsIdx v1 ((v1.length : Int) - 3))),
         (9 * index + 1, mkTok (jsIdx v1 ((v1.length : Int) - 2))),
         (9 * index + 2, mkTok (jsIdx v1 ((v1.length : Int) - 1))),
         (9 * index + 3, mkTok (jsIdx v2 ((v2.length : Int) - 3))),
         (9 * index + 4, mkTok (jsIdx v2 ((v2.length : Int) - 2))),
         (9 * index + 5, mkTok (jsIdx v2 ((v3.length : Int) - 1))),
         (9 * index + 6, mkTok (jsIdx v3 ((v2.length : Int) - 3))),
         (9 * index + 7, mkTok (jsIdx v3 ((v3.length : Int) - 2))),
         (9 * index + 8, mkTok (jsIdx v3 ((v3.length : Int) - 1)))]
  | _, _, _ => .error ()

/-- Body of `stl_ascii`'s `reader.onload`, after the newline split.
`triCount = (splice.length - 3) / 7` must be an exact integer
(`triCount !== parseInt(triCount, 10)` throws otherwise; for the lengths a
split can produce this is exactly `3 ≤ length ∧ (length - 3) % 7 = 0`). -/
def stl_ascii_lines (splice : List String) : Except Unit (List StlEv) :=
  if 3 ≤ splice.length ∧ (splice.length - 3) % 7 = 0 then
    let triCount := (splice.length - 3) / 7
    let batchLimit := triCount / PER_BATCH
    let remainder := triCount - batchLimit * PER_BATCH
    runBatchAux (asciiGetTriangle splice) remainder batchLimit 0
      (List.replicate (triCount * 9) (MeshVal.word 0))
  else .error ()

/-- The ASCII STL sub-parser on the text read from the blob
(`reader.result.split(/\n/g)` then the batched triangle loop). -/
def stl_ascii_onload (text : String) : Except Unit (List StlEv) :=
  stl_ascii_lines (jsSplit '\n' text)

/-- `getTriangle(index)` of the binary STL sub-parser:
`new Float32Array(arr.buffer.slice(96 + 50*index, 132 + 50*index))` followed by
the nine `triangleData` stores (out-of-range reads store NaN). -/
def binaryGetTriangle (arr : List Nat) (index : Nat) :
    Except Unit (List (Nat × MeshVal)) :=
  let sl := jsSlice arr (96 + 50 * index) (132 + 50 * index)
  if sl.length % 4 = 0 then
    let triangle := leWords sl
    .ok [(9 * index, mkW triangle[0]?),
         (9 * index + 1, mkW triangle[1]?),
         (9 * index + 2, mkW triangle[2]?),
         (9 * index + 3, mkW triangle[3]?),
         (9 * index + 4, mkW triangle[4]?),
         (9 * index + 5, mkW triangle[5]?),
         (9 * index + 6, mkW triangle[6]?),
         (9 * index + 7, mkW triangle[7]?),
         (9 * index + 8, mkW triangle[8]?)]
  else .error ()

/-- Body of `stl_binary`'s `reader.onload`: the triangle count is
`new Uint32Array(arr.buffer.slice(80, 84))[0]` (the view constructor throws on
a clamped slice whose length is not a multiple of 4; reading element 0 of an
empty view gives `undefined`, and `undefined !== parseInt(undefined, 10)`
throws; any actual `Uint32` value passes the `parseInt` self-check). -/
def stl_binary_onload (arr : List Nat) : Except Unit (List StlEv) :=
  let hsl := jsSlice arr 80 84
  if hsl.length % 4 = 0 then
    match (leWords hsl)[0]? with
    | none => .error ()
    | some triCount =>
      let batchLimit := triCount / PER_BATCH
      let remainder := triCount - batchLimit * PER_BATCH
      runBatchAux (binaryGetTriangle arr) remainder batchLimit 0
        (List.replicate (triCount * 9) (MeshVal.word 0))
  else .error ()

/-- The per-viewer fallback flags (`this.attemptedASCII_STL`,
`this.attemptedBINARY_STL`), both initialised `false`. -/
structure ViewerFlags where
  attemptedASCII_STL : Bool
  attemptedBINARY_STL : Bool
deriving DecidableEq, Repr

/-- The two `FileReader` views of the blob handed to the STL parsers:
`readAsText` for the ASCII path and `readAsArrayBuffer` for the binary path. -/
structure BlobData where
  text : String
  bytes : List Nat

/-- The mutually recursive pair `stl_ascii`/`stl_binary`, which call each other
from their `catch` blocks after setting their attempt flag.  The flags bound
the call depth by 3, encoded here by a depth counter (`gas`); the entry points
below supply `gas = 3`, which the flag discipline can never exhaust. -/
def stlTry (isAscii : Bool) (gas : Nat) (data : BlobData) (v : ViewerFlags) :
    ViewerFlags × List StlEv :=
  match gas with
  | 0 => (v, [])
  | gas + 1 =>
    if isAscii then
      if v.attemptedASCII_STL then (v, [])
      else
        match stl_ascii_onload data.text with
        | .ok evs => (v, evs)
        | .error _ => stlTry false gas data { v with attemptedASCII_STL := true }
    else
      if v.attemptedBINARY_STL then (v, [])
      else
        match stl_binary_onload data.bytes with
        | .ok evs => (v, evs)
        | .error _ => stlTry true gas data { v with attemptedBINARY_STL := true }

/-- `function stl_ascii(data, viewer)`: returns the updated flags and the
host-visible events. -/
def stl_ascii (data : BlobData) (v : ViewerFlags) : ViewerFlags × List StlEv :=
  stlTry true 3 data v

/-- `function stl_binary(data, viewer)`. -/
def stl_binary (data : BlobData) (v : ViewerFlags) : ViewerFlags × List StlEv :=
  stlTry false 3 data v

/-! ### The OBJ parser (`packit.parseOBJ`) -/

/-- A JS number as produced by `parseFloat`: a finite value (exact, since the
claims below never depend on float32 rounding) or an infinity.  `NaN` is
represented by `none` in `Option JsNum` (`isNaN` is exactly `Option.isNone`). -/
inductive JsNum where
  | num (q : ℚ)
  | posInf
  | negInf
deriving DecidableEq, Repr

/-- JS unary minus on a non-NaN number. -/
def negJs : JsNum → JsNum
  | .num q => .num (-q)
  | .posInf => .negInf
  | .negInf => .posInf

/-- The whitespace characters skipped by JS `parseFloat`/`parseInt`. -/
def isWsChar (c : Char) : Bool :=
  c = ' ' ∨ c = '\t' ∨ c = '\n' ∨ c = '\r' ∨ c = '\x0b' ∨ c = '\x0c'

/-- Decimal digit test. -/
def isDigitC (c : Char) : Bool := '0' ≤ c ∧ c ≤ '9'

/-- Value of a decimal digit string. -/
def digitsToNat (ds : List Char) : Nat :=
  ds.foldl (fun a c => 10 * a + (c.toNat - '0'.toNat)) 0

/-- Exponent digits after `e`/`E` and an optional sign (JS: if no digits
follow, the exponent part is not consumed and the multiplier is 1). -/
def parseExpAfterE : List Char → Int
  | '-' :: rest => -(digitsToNat (rest.takeWhile isDigitC) : Int)
  | '+' :: rest => (digitsToNat (rest.takeWhile isDigitC) : Int)
  | rest => (digitsToNat (rest.takeWhile isDigitC) : Int)

/-- Optional exponent part of a decimal literal. -/
def parseExp : List Char → Int
  | 'e' :: rest => parseExpAfterE rest
  | 'E' :: rest => parseExpAfterE rest
  | _ => 0

/-- `10 ^ e` in `ℚ` for an integer exponent. -/
def qpow10 : Int → ℚ
  | .ofNat n => (10 : ℚ) ^ n
  | .negSucc n => 1 / (10 : ℚ) ^ (n + 1)

/-- JS `parseFloat` after whitespace and sign: `Infinity` or the longest
decimal-literal prefix (`digits [. digits] [e sign digits]`); `none` is NaN. -/
def jsParseFloatAux (cs : List Char) : Option JsNum :=
  if "Infinity".data.isPrefixOf cs then some .posInf
  else
    let ip := cs.takeWhile isDigitC
    let r1 := cs.dropWhile isDigitC
    match r1 with
    | '.' :: r2 =>
      let fp := r2.takeWhile isDigitC
      let r3 := r2.dropWhile isDigitC
      if ip.isEmpty ∧ fp.isEmpty then none
      else some (.num ((digitsToNat (ip ++ fp) : ℚ) / (10 : ℚ) ^ fp.length * qpow10 (parseExp r3)))
    | _ =>
      if ip.isEmpty then none
      else some (.num ((digitsToNat ip : ℚ) * qpow10 (parseExp r1)))

/-- JS `parseFloat(s)`: skip whitespace, optional sign, then the longest
numeric-literal prefix; NaN (`none`) if none exists. -/
def jsParseFloat (s : String) : Option JsNum :=
  match s.data.dropWhile isWsChar with
  | '-' :: rest => (jsParseFloatAux rest).map negJs
  | '+' :: rest => jsParseFloatAux rest
  | cs => jsParseFloatAux cs

/-- Hexadecimal digit value. -/
def hexVal (c : Char) : Option Nat :=
  if '0' ≤ c ∧ c ≤ '9' then some (c.toNat - '0'.toNat)
  else if 'a' ≤ c ∧ c ≤ 'f' then some (c.toNat - 'a'.toNat + 10)
  else if 'A' ≤ c ∧ c ≤ 'F' then some (c.toNat - 'A'.toNat + 10)
  else none

/-- JS `parseInt` magnitude: with no radix argument the default is 10 unless
the string starts with `0x`/`0X` (hex); NaN (`none`) if no digit follows. -/
def jsParseIntNoSign (cs : List Char) : Option Nat :=
  match cs with
  | '0' :: 'x' :: rest =>
    let hs := rest.takeWhile (fun c => (hexVal c).isSome)
    if hs.isEmpty then none
    else some (hs.foldl (fun a c => 16 * a + (hexVal c).getD 0) 0)
  | '0' :: 'X' :: rest =>
    let hs := rest.takeWhile (fun c => (hexVal c).isSome)
    if hs.isEmpty then none
    else some (hs.foldl (fun a c => 16 * a + (hexVal c).getD 0) 0)
  | _ =>
    let ds := cs.takeWhile isDigitC
    if ds.isEmpty then none else some (digitsToNat ds)

/-- JS `parseInt(s)` (no radix argument), returning `none` for NaN. -/
def jsParseInt (s : String) : Option Int :=
  match s.data.dropWhile isWsChar with
  | '-' :: rest => (jsParseIntNoSign rest).map (fun n => -(n : Int))
  | '+' :: rest => (jsParseIntNoSign rest).map (fun n => (n : Int))
  | cs => (jsParseIntNoSign cs).map (fun n => (n : Int))

/-- `parseInt(v)` where `v` may be `undefined` (as in `parseInt(spl[1])` on a
face token without a `/`): `parseInt(undefined)` is NaN. -/
def jsParseIntOpt : Option String → Option Int
  | some s => jsParseInt s
  | none => none

/-- The accumulator arrays of `packit.parseOBJ` (`materials` is declared in the
source but never used).  `faces`/`uvfaces` hold JS numbers that may be
fractional (after the relative-index adjustment), NaN, or `undefined` (pushed
by an out-of-range read); NaN and `undefined` are both `none` since both are
stored as NaN by the final typed-array conversion. -/
structure ObjState where
  vertices : List JsNum
  uvs : List JsNum
  faces : List (Option ℚ)
  uvfaces : List (Option ℚ)
deriving DecidableEq, Repr

/-- The initial (empty) accumulator state. -/
def ObjState.init : ObjState := ⟨[], [], [], []⟩

/-- `parseVertex(line)`: every whitespace-separated token that parses as a
number (`!isNaN(parseFloat(tok))`) is appended to `vertices`. -/
def parseVertex (st : ObjState) (line : String) : ObjState :=
  { st with vertices := st.vertices ++ (jsSplit ' ' line).filterMap jsParseFloat }

/-- `parseUV(line)`: same, appending to `uvs`. -/
def parseUV (st : ObjState) (line : String) : ObjState :=
  { st with uvs := st.uvs ++ (jsSplit ' ' line).filterMap jsParseFloat }

/-- `if (face < 0) { face += len/3 + 1; }` — the relative-from-end adjustment
of a face (or uv) index against the current flat coordinate-list length `len`
(a JS float division, hence the `ℚ` result). -/
def relIndex (len : Nat) (v : Int) : ℚ :=
  if v < 0 then (v : ℚ) + (len : ℚ) / 3 + 1 else (v : ℚ)

/-- JS read `xs[i]` on a number array, where the slot may itself hold a
non-number (`none`) and a negative or out-of-range index gives `undefined`. -/
def jsReadQ (xs : List (Option ℚ)) (i : Int) : Option ℚ :=
  if 0 ≤ i then (xs[i.toNat]?).getD none else none

/-- The body of `parseFace`'s loop for the token at position `it.1` of the
split line: parse `vertexIndex[/uvIndex…]`, skip the corner if the vertex
component is NaN, resolve both components relative-from-end if negative, push
the 0-based index, and for a position beyond 3 push copies of the entries
4 and 3 places from the end (the second read occurring after the first push). -/
def faceStep (st : ObjState) (it : Nat × String) : ObjState :=
  let spl := jsSplit '/' it.2
  match jsParseIntOpt spl[0]? with
  | none => st
  | some face =>
    let texture := jsParseIntOpt spl[1]?
    let faces1 := st.faces ++ [some (relIndex st.vertices.length face - 1)]
    let faces2 :=
      if 3 < it.1 then
        let f1 := faces1 ++ [jsReadQ faces1 ((faces1.length : Int) - 4)]
        f1 ++ [jsReadQ f1 ((f1.length : Int) - 3)]
      else faces1
    let uvf1 := st.uvfaces ++ [(texture.map (fun t => relIndex st.uvs.length t - 1))]
    let uvf2 :=
      if 3 < it.1 then
        let u1 := uvf1 ++ [jsReadQ uvf1 ((uvf1.length : Int) - 4)]
        u1 ++ [jsReadQ u1 ((u1.length : Int) - 3)]
      else uvf1
    { st with faces := faces2, uvfaces := uvf2 }

/-- `parseFace(line)`: the loop `for (let i = 1; i < arr.length - 1; i++)`
visits the tokens at positions `1 … arr.length - 2` — the final token of the
line is never visited. -/
def parseFace (st : ObjState) (line : String) : ObjState :=
  let arr := jsSplit ' ' line
  (List.enumFrom 1 ((arr.drop 1).dropLast)).foldl faceStep st

/-- Dispatch on `splice[i].substring(0, 2)`. -/
def objLineStep (st : ObjState) (line : String) : ObjState :=
  let identifier := String.mk (line.data.take 2)
  if identifier = "v " then parseVertex st line
  else if identifier = "vt" then parseUV st line
  else if identifier = "f " then parseFace st line
  else st

/-- The accumulator state after `parseOBJ`'s line loop. -/
def parseOBJState (text : String) : ObjState :=
  (jsSplit '\n' text).foldl objLineStep ObjState.init

/-- The argument tuple of the single `viewer.display` call made by
`parseOBJ`: `display(new Float32Array(vertices), null, new Uint32Array(faces),
null, new Float32Array(uvfaces))`.  The lists are the JS arrays backing the
typed-array arguments (the typed-array constructors coerce element-wise). -/
structure ObjDisplay where
  vertices : List JsNum
  name : Option String
  faceIndices : List (Option ℚ)
  colors : Option (List JsNum)
  uvs : List (Option ℚ)
deriving DecidableEq, Repr

/-- Host-visible trace of an OBJ parse (the parser's only callback). -/
inductive ObjEv where
  | display (d : ObjDisplay)
deriving DecidableEq, Repr

/-- `packit.parseOBJ`: split on newlines, fold the line dispatch, then hand the
arrays to `viewer.display` — unconditionally, exactly once. -/
def parseOBJ (text : String) : List ObjEv :=
  let st := parseOBJState text
  [.display { vertices := st.vertices, name := none, faceIndices := st.faces,
              colors := none, uvs := st.uvfaces }]

/-! ### Definitions taken from the specification's words (for refinement
comparisons), and concrete inputs used by the claim theorems. -/

/-- Modelled from the spec: the reading the spec's §4.3 sentence describes for
claim C4 — "Each 50-byte record's first 36 bytes are 9 consecutive 32-bit
floats", the record beginning at byte `84 + 50 i`.  (The code instead reads
bytes `[96 + 50 i, 132 + 50 i)`.) -/
def specRecordWords (arr : List Nat) (i : Nat) : List MeshVal :=
  (List.range 9).map (fun k => MeshVal.word (w32 arr (84 + 50 * i + 4 * k)))

/-- A minimal, structurally valid STL-ASCII file: header line, one 7-line facet
group, footer line, trailing newline (so the newline split has 10 fields and
`triCount = 1`). -/
def minStlText : String :=
  "solid t\nfacet normal 0 0 0\nouter loop\nvertex 1 2 3\nvertex 4 5 6\nvertex 7 8 9\nendloop\nendfacet\nendsolid t\n"

/-- The split lines of a one-triangle STL whose third vertex line carries one
extra leading token (`"x vertex 7 8 9"`, 5 tokens) while the first two vertex
lines have the usual 4 tokens. -/
def skewStlLines : List String :=
  ["solid t", "facet normal 0 0 0", "outer loop",
   "vertex 1 2 3", "vertex 4 5 6", "x vertex 7 8 9",
   "endloop", "endfacet", "endsolid t", ""]

/-- A blob that fails both STL sub-parsers: its text splits into a single line
(`(1-3)/7` is not an integer) and its 3 bytes make the `Uint32Array` count read
yield `undefined`. -/
def corruptBlob : BlobData := ⟨"x", [0, 1, 2]⟩

/-- An 84-byte binary STL buffer declaring one triangle but containing no
record bytes at all: `84 + 50 * 1 > 84`. -/
def shortBin84 : List Nat := List.replicate 80 0 ++ [1, 0, 0, 0]

/-- A 97-byte buffer declaring one triangle: the first record slice clamps to
1 byte, so the `Float32Array` view constructor throws. -/
def ragged97 : BlobData := ⟨"x", List.replicate 80 0 ++ [1, 0, 0, 0] ++ List.replicate 13 0⟩

/-- A 134-byte binary STL buffer with one full 50-byte record whose bytes are
`84 + j ↦ j`, so every byte offset is identifiable in the parsed words. -/
def oneTriBin : List Nat := List.replicate 80 0 ++ [1, 0, 0, 0] ++ List.range 50

/-- The OBJ input exhibiting the `uvs` argument mix-up: one `vt` record, one
vertex, and a face line (whose final token is never visited by the loop). -/
def objUvText : String := "vt 0.25 0.5 0.75\nv 1 2 3\nf 1/1 1/1 x"

/-- An 84-byte buffer declaring two triangles (for the C3 witness). -/
def countTwoBin : List Nat := List.replicate 80 0 ++ [2, 0, 0, 0]

/-- A 134-byte one-record binary STL whose record bytes are all 7
(for the C4 witness). -/
def oneTriBinW : List Nat := List.replicate 80 0 ++ [1, 0, 0, 0] ++ List.replicate 50 7

/-- An OBJ accumulator state with one vertex (3 floats) and one uv record
(3 floats) already read (for the C8 witness). -/
def objStW : ObjState := ⟨[.num 1, .num 2, .num 3], [.num 4, .num 5, .num 6], [], []⟩

/-- Decidable equality of parse results, so that concrete runs can be settled
by `decide`. -/
instance {ε α : Type} [DecidableEq ε] [DecidableEq α] : DecidableEq (Except ε α) := fun a b =>
  match a, b with
  | .ok x, .ok y =>
    match decEq x y with
    | isTrue h => isTrue (by rw [h])
    | isFalse h => isFalse (by intro hc; cases hc; exact h rfl)
  | .error x, .error y =>
    match decEq x y with
    | isTrue h => isTrue (by rw [h])
    | isFalse h => isFalse (by intro hc; cases hc; exact h rfl)
  | .ok _, .error _ => isFalse (by intro hc; cases hc)
  | .error _, .ok _ => isFalse (by intro hc; cases hc)

/-! ## Lemmas about the shared batching machinery -/

/-- Setting a slot in the right part of an appended list. -/
theorem set_append_shift (P : List MeshVal) :
    ∀ (Q : List MeshVal) (k : Nat) (v : MeshVal),
      (P ++ Q).set (P.length + k) v = P ++ Q.set k v := by
  induction P with
  | nil => intro Q k v; simp
  | cons p P ih =>
    intro Q k v
    have h : (p :: P).length + k = (P.length + k) + 1 := by simp [List.length_cons]; omega
    rw [h]
    simp only [List.cons_append, List.set_cons_succ]
    rw [ih]

/-- An in-range typed-array store into the right part of an appended buffer. -/
theorem applyWrite_append (P Q : List MeshVal) (k : Nat) (v : MeshVal) (hk : k < Q.length) :
    applyWrite (P ++ Q) (P.length + k, v) = P ++ Q.set k v := by
  unfold applyWrite
  rw [if_pos (by simp only [List.length_append]; omega)]
  exact set_append_shift P Q k v

/-- The `k = 0` instance, with the position written as `P.length`. -/
theorem applyWrite_append0 (P Q : List MeshVal) (v : MeshVal) (hk : 0 < Q.length) :
    applyWrite (P ++ Q) (P.length, v) = P ++ Q.set 0 v := by
  have h := applyWrite_append P Q 0 v hk
  simpa using h

/-- An out-of-range typed-array store is dropped. -/
theorem applyWrite_oob (buf : List MeshVal) (j : Nat) (v : MeshVal) (h : buf.length ≤ j) :
    applyWrite buf (j, v) = buf := by
  unfold applyWrite
  rw [if_neg (by omega)]

/-- Consecutive stores of `vs` starting at position `P.length` overwrite
exactly the `vs.length` default cells sitting there. -/
theorem row_writes (d : MeshVal) :
    ∀ (vs P T : List MeshVal) (p : Nat), p = P.length →
      (List.enumFrom p vs).foldl applyWrite (P ++ (List.replicate vs.length d ++ T))
      = P ++ (vs ++ T) := by
  intro vs
  induction vs with
  | nil => intro P T p hp; simp
  | cons v vs ih =>
    intro P T p hp
    subst hp
    simp only [List.enumFrom, List.length_cons, List.replicate_succ, List.foldl_cons]
    rw [applyWrite_append0 _ _ _ (by simp), List.cons_append, List.set_cons_zero]
    have hstep := ih (P ++ [v]) T (P.length + 1) (by simp)
    simpa using hstep

/-- Consecutive stores entirely past the end of the buffer change nothing. -/
theorem row_writes_oob :
    ∀ (vs : List MeshVal) (p : Nat) (buf : List MeshVal), buf.length ≤ p →
      (List.enumFrom p vs).foldl applyWrite buf = buf := by
  intro vs
  induction vs with
  | nil => intro p buf h; simp
  | cons v vs ih =>
    intro p buf h
    simp only [List.enumFrom, List.foldl_cons]
    rw [applyWrite_oob buf p v h]
    exact ih (p + 1) buf (by omega)

/-- Writing the 9-cell rows of triangles `m, m+1, …, m+n-1` into the
`9 n` default cells that follow a settled prefix of length `9 m` yields the
concatenation of the rows, in triangle order. -/
theorem tri_writes (rows : Nat → List MeshVal) (hrows : ∀ i, (rows i).length = 9)
    (d : MeshVal) :
    ∀ (n m : Nat) (P : List MeshVal), P.length = 9 * m →
      (List.range' m n).foldl (fun b i => (List.enumFrom (9 * i) (rows i)).foldl applyWrite b)
        (P ++ List.replicate (9 * n) d)
      = P ++ (List.range' m n).flatMap rows := by
  intro n
  induction n with
  | zero => intro m P hP; simp
  | succ n ih =>
    intro m P hP
    rw [List.range'_succ]
    simp only [List.foldl_cons, List.flatMap_cons]
    have hrep : List.replicate (9 * (n + 1)) d
        = List.replicate (rows m).length d ++ List.replicate (9 * n) d := by
      rw [hrows m, show 9 * (n + 1) = 9 + 9 * n by ring, List.replicate_add]
    rw [hrep, row_writes d (rows m) P (List.replicate (9 * n) d) (9 * m) hP.symm]
    have hstep := ih (m + 1) (P ++ rows m) (by simp [hrows m, hP]; ring)
    rw [← List.append_assoc, ← List.append_assoc]
    exact hstep

/-- Rows aimed entirely past the end of the buffer change nothing. -/
theorem tri_writes_oob (rows : Nat → List MeshVal) :
    ∀ (l : List Nat) (buf : List MeshVal), (∀ i ∈ l, buf.length ≤ 9 * i) →
      l.foldl (fun b i => (List.enumFrom (9 * i) (rows i)).foldl applyWrite b) buf = buf := by
  intro l
  induction l with
  | nil => intro buf _; simp
  | cons i l ih =>
    intro buf h
    simp only [List.foldl_cons]
    rw [row_writes_oob (rows i) (9 * i) buf (h i (by simp))]
    exact ih buf (fun j hj => h j (by simp [hj]))

/-- Length of the concatenated 9-cell rows. -/
theorem flatMap_rows_length (rows : Nat → List MeshVal) (hrows : ∀ i, (rows i).length = 9) :
    ∀ (n m : Nat), ((List.range' m n).flatMap rows).length = 9 * n := by
  intro n
  induction n with
  | zero => intro m; simp
  | succ n ih =>
    intro m
    rw [List.range'_succ]
    simp only [List.flatMap_cons, List.length_append, hrows m, ih (m + 1)]
    ring

/-- A batch loop over an exception-free `getTriangle` processes exactly the
indices `base … base+count-1` in order, folding their stores into the buffer. -/
theorem batchLoop_ok (getTri : Nat → Except Unit (List (Nat × MeshVal)))
    (w : Nat → List (Nat × MeshVal)) (hok : ∀ i, getTri i = .ok (w i)) :
    ∀ (count base : Nat) (buf : List MeshVal),
      batchLoop getTri base count buf
      = .ok (List.range' base count,
          (List.range' base count).foldl (fun b i => (w i).foldl applyWrite b) buf) := by
  intro count
  induction count with
  | zero => intro base buf; simp [batchLoop]
  | succ n ih =>
    intro base buf
    rw [List.range'_succ]
    simp only [batchLoop, hok base, ih (base + 1), List.foldl_cons]

/-- The full trace of `runBatch` when no triangle throws: with the encoding
`rb = batchLimit - batchCount`, the full `PER_BATCH`-sized loops run at batch
counters `bc, …, bc + max rb 1 - 1`, then the `remainder` loop runs at the next
counter, then `viewer.display` is called exactly once with the final buffer. -/
theorem runBatchAux_ok (getTri : Nat → Except Unit (List (Nat × MeshVal)))
    (w : Nat → List (Nat × MeshVal)) (hok : ∀ i, getTri i = .ok (w i)) (rem : Nat) :
    ∀ (rb bc : Nat) (buf : List MeshVal),
      runBatchAux getTri rem rb bc buf
      = .ok (((List.range' bc (max rb 1)).map
                (fun b => StlEv.batch (List.range' (PER_BATCH * b) PER_BATCH)))
             ++ [.batch (List.range' (PER_BATCH * (bc + max rb 1)) rem),
                 .display ((List.range' (PER_BATCH * bc) (PER_BATCH * max rb 1 + rem)).foldl
                     (fun b i => (w i).foldl applyWrite b) buf)]) := by
  have hjoin : ∀ (X bc : Nat) (buf : List MeshVal),
      (List.range' (PER_BATCH * (bc + 1)) X).foldl (fun b i => (w i).foldl applyWrite b)
        ((List.range' (PER_BATCH * bc) PER_BATCH).foldl (fun b i => (w i).foldl applyWrite b) buf)
      = (List.range' (PER_BATCH * bc) (PER_BATCH + X)).foldl
          (fun b i => (w i).foldl applyWrite b) buf := by
    intro X bc buf
    rw [← List.foldl_append]
    rw [show PER_BATCH * (bc + 1) = PER_BATCH * bc + PER_BATCH by ring]
    rw [List.range'_append_1 (PER_BATCH * bc) PER_BATCH X]
    rw [Nat.add_comm X PER_BATCH]
  intro rb
  induction rb using Nat.strong_induction_on with
  | _ rb ih =>
    rcases rb with _ | _ | r
    · intro bc buf
      simp only [runBatchAux, runBatchLast, batchLoop_ok getTri w hok]
      rw [hjoin rem bc buf]
      simp
    · intro bc buf
      simp only [runBatchAux, runBatchLast, batchLoop_ok getTri w hok]
      rw [hjoin rem bc buf]
      simp
    · intro bc buf
      simp only [runBatchAux, batchLoop_ok getTri w hok, ih (r + 1) (by omega) (bc + 1)]
      rw [hjoin (PER_BATCH * max (r + 1) 1 + rem) bc buf]
      have hm1 : max (r + 1 + 1) 1 = r + 2 := by omega
      have hm2 : max (r + 1) 1 = r + 1 := by omega
      rw [hm1, hm2]
      have hrange : List.range' bc (r + 2) = bc :: List.range' (bc + 1) (r + 1) :=
        List.range'_succ bc (r + 1) 1
      rw [hrange]
      simp only [List.map_cons, List.cons_append]
      have hbase : bc + 1 + (r + 1) = bc + (r + 2) := by omega
      rw [hbase]
      have hlen : PER_BATCH + (PER_BATCH * (r + 1) + rem) = PER_BATCH * (r + 2) + rem := by
        ring
      rw [hlen]

/-! ## Lemmas about buffer slices and word views -/

/-- Length of a clamped slice. -/
theorem jsSlice_length (arr : List Nat) (a b : Nat) :
    (jsSlice arr a b).length = min b arr.length - a := by
  simp [jsSlice]

/-- A slice starting at or past the end of the buffer is empty. -/
theorem jsSlice_nil (arr : List Nat) (a b : Nat) (h : arr.length ≤ a) :
    jsSlice arr a b = [] := by
  unfold jsSlice
  exact List.drop_eq_nil_of_le (by simp; omega)

/-- Reading inside a slice reads the underlying buffer. -/
theorem jsSlice_getElem? (arr : List Nat) (a b j : Nat) (h : a + j < b) :
    (jsSlice arr a b)[j]? = arr[a + j]? := by
  unfold jsSlice
  rw [List.getElem?_drop]
  exact List.getElem?_take_of_lt (by omega)

/-- `getD` version of `jsSlice_getElem?`. -/
theorem jsSlice_getD (arr : List Nat) (a b j : Nat) (h : a + j < b) :
    (jsSlice arr a b).getD j 0 = arr.getD (a + j) 0 := by
  simp only [List.getD_eq_getElem?_getD]
  rw [jsSlice_getElem? arr a b j h]

/-- Reading four positions past a 4-byte prefix. -/
theorem getD_cons4 (b0 b1 b2 b3 : Nat) (rest : List Nat) (n : Nat) :
    (b0 :: b1 :: b2 :: b3 :: rest).getD (n + 4) 0 = rest.getD n 0 := by
  simp [show n + 4 = n + 1 + 1 + 1 + 1 from by omega, List.getD_cons_succ]

/-- Element `k` of a 4-byte-aligned word view, as a little-endian word of the
four bytes at positions `4k … 4k+3`. -/
theorem leWords_getElem? :
    ∀ (k : Nat) (l : List Nat), 4 * k + 4 ≤ l.length →
      (leWords l)[k]? = some (l.getD (4 * k) 0 + 256 * l.getD (4 * k + 1) 0
        + 65536 * l.getD (4 * k + 2) 0 + 16777216 * l.getD (4 * k + 3) 0) := by
  intro k
  induction k with
  | zero =>
    intro l h
    rcases l with _ | ⟨b0, _ | ⟨b1, _ | ⟨b2, _ | ⟨b3, rest⟩⟩⟩⟩ <;> simp at h <;> try omega
    simp [leWords, List.getD_cons_zero, List.getD_cons_succ]
  | succ k ih =>
    intro l h
    rcases l with _ | ⟨b0, _ | ⟨b1, _ | ⟨b2, _ | ⟨b3, rest⟩⟩⟩⟩ <;> simp at h <;> try omega
    have hrest : 4 * k + 4 ≤ rest.length := by omega
    rw [show leWords (b0 :: b1 :: b2 :: b3 :: rest)
          = (b0 + 256 * b1 + 65536 * b2 + 16777216 * b3) :: leWords rest from rfl]
    rw [List.getElem?_cons_succ]
    rw [ih rest hrest]
    rw [show 4 * (k + 1) = 4 * k + 4 from by ring]
    rw [show 4 * k + 4 + 1 = 4 * k + 1 + 4 from by omega,
        show 4 * k + 4 + 2 = 4 * k + 2 + 4 from by omega,
        show 4 * k + 4 + 3 = 4 * k + 3 + 4 from by omega]
    rw [getD_cons4, getD_cons4, getD_cons4, getD_cons4]

/-- The triangle count read by the binary sub-parser from any buffer of at
least 84 bytes is the little-endian 32-bit word at byte 80, and the count
slice passes the alignment check. -/
theorem header_count (arr : List Nat) (h : 84 ≤ arr.length) :
    (jsSlice arr 80 84).length % 4 = 0 ∧ (leWords (jsSlice arr 80 84))[0]? = some (w32 arr 80) := by
  have hlen : (jsSlice arr 80 84).length = 4 := by
    rw [jsSlice_length]; omega
  refine ⟨by rw [hlen], ?_⟩
  rw [leWords_getElem? 0 _ (by rw [hlen])]
  rw [show 4 * 0 = 0 from rfl]
  rw [jsSlice_getD arr 80 84 0 (by omega), jsSlice_getD arr 80 84 1 (by omega),
      jsSlice_getD arr 80 84 2 (by omega), jsSlice_getD arr 80 84 3 (by omega)]
  rfl

/-- The 9-cell row written for triangle `i` when its whole 50-byte record is
inside the buffer: the words of bytes `[96 + 50 i, 132 + 50 i)`. -/
def binRow (arr : List Nat) (i : Nat) : List MeshVal :=
  (List.range 9).map (fun k => MeshVal.word (w32 arr (96 + 50 * i + 4 * k)))

/-- `getTriangle(i)` of the binary sub-parser on an in-range record. -/
theorem binaryGetTriangle_full (arr : List Nat) (i : Nat) (hlen : 132 + 50 * i ≤ arr.length) :
    binaryGetTriangle arr i = .ok (List.enumFrom (9 * i) (binRow arr i)) := by
  have hsl : (jsSlice arr (96 + 50 * i) (132 + 50 * i)).length = 36 := by
    rw [jsSlice_length]; omega
  have hword : ∀ k, 4 * k + 4 ≤ 36 →
      (leWords (jsSlice arr (96 + 50 * i) (132 + 50 * i)))[k]?
      = some (w32 arr (96 + 50 * i + 4 * k)) := by
    intro k hk
    rw [leWords_getElem? k _ (by rw [hsl]; omega)]
    rw [jsSlice_getD arr _ _ (4 * k) (by omega), jsSlice_getD arr _ _ (4 * k + 1) (by omega),
        jsSlice_getD arr _ _ (4 * k + 2) (by omega), jsSlice_getD arr _ _ (4 * k + 3) (by omega)]
    unfold w32
    rw [show 96 + 50 * i + (4 * k + 1) = 96 + 50 * i + 4 * k + 1 from by omega,
        show 96 + 50 * i + (4 * k + 2) = 96 + 50 * i + 4 * k + 2 from by omega,
        show 96 + 50 * i + (4 * k + 3) = 96 + 50 * i + 4 * k + 3 from by omega]
  unfold binaryGetTriangle
  rw [if_pos (by rw [hsl])]
  dsimp only
  rw [hword 0 (by omega), hword 1 (by omega), hword 2 (by omega), hword 3 (by omega),
      hword 4 (by omega), hword 5 (by omega), hword 6 (by omega), hword 7 (by omega),
      hword 8 (by omega)]
  simp [binRow, mkW, List.enumFrom, List.range_succ]

/-- `getTriangle(i)` of the binary sub-parser when the record slice clamps to
nothing: nine NaN stores. -/
theorem binaryGetTriangle_empty (arr : List Nat) (i : Nat) (h : arr.length ≤ 96 + 50 * i) :
    binaryGetTriangle arr i = .ok (List.enumFrom (9 * i) (List.replicate 9 MeshVal.nan)) := by
  unfold binaryGetTriangle
  rw [jsSlice_nil arr _ _ h]
  simp [leWords, mkW, List.enumFrom, List.replicate]

/-- A run of the binary sub-parser body when no `getTriangle` throws: given the
9-cell rows each triangle writes, the parse performs `max (n/500) 1` full
batches and one remainder batch in increasing index order and then displays
the buffer holding the rows of triangles `0 … n-1` in order (stores of the
overshooting indices land past the end of the buffer and are dropped). -/
theorem stl_binary_onload_rows (arr : List Nat) (n : Nat)
    (h4 : (jsSlice arr 80 84).length % 4 = 0)
    (hcnt : (leWords (jsSlice arr 80 84))[0]? = some n)
    (rows : Nat → List MeshVal) (hrows : ∀ i, (rows i).length = 9)
    (hok : ∀ i, binaryGetTriangle arr i = .ok (List.enumFrom (9 * i) (rows i))) :
    stl_binary_onload arr
    = .ok (((List.range' 0 (max (n / PER_BATCH) 1)).map
              (fun b => StlEv.batch (List.range' (PER_BATCH * b) PER_BATCH)))
           ++ [.batch (List.range' (PER_BATCH * max (n / PER_BATCH) 1)
                  (n - n / PER_BATCH * PER_BATCH)),
               .display ((List.range' 0 n).flatMap rows)]) := by
  unfold stl_binary_onload
  rw [if_pos h4, hcnt]
  dsimp only
  rw [runBatchAux_ok (binaryGetTriangle arr) (fun i => List.enumFrom (9 * i) (rows i)) hok]
  have hP : n ≤ PER_BATCH * max (n / PER_BATCH) 1 + (n - n / PER_BATCH * PER_BATCH) := by
    simp only [PER_BATCH]
    omega
  have hsplit : List.range' 0 (PER_BATCH * max (n / PER_BATCH) 1 + (n - n / PER_BATCH * PER_BATCH))
      = List.range' 0 n ++ List.range' n
          (PER_BATCH * max (n / PER_BATCH) 1 + (n - n / PER_BATCH * PER_BATCH) - n) := by
    have h := List.range'_append_1 0 n
      (PER_BATCH * max (n / PER_BATCH) 1 + (n - n / PER_BATCH * PER_BATCH) - n)
    simp only [Nat.zero_add] at h
    rw [show PER_BATCH * max (n / PER_BATCH) 1 + (n - n / PER_BATCH * PER_BATCH) - n + n
        = PER_BATCH * max (n / PER_BATCH) 1 + (n - n / PER_BATCH * PER_BATCH) from by
      simp only [PER_BATCH]; omega] at h
    exact h.symm
  rw [show PER_BATCH * 0 = 0 from rfl, hsplit, List.foldl_append]
  have hfirst := tri_writes rows hrows (MeshVal.word 0) n 0 [] (by simp)
  simp only [List.nil_append] at hfirst
  rw [show n * 9 = 9 * n from by ring, hfirst]
  rw [tri_writes_oob rows _ _ (by
    intro i hi
    rw [flatMap_rows_length rows hrows]
    have := (List.mem_range'_1.mp hi).1
    omega)]
  rw [show (0 : Nat) + max (n / PER_BATCH) 1 = max (n / PER_BATCH) 1 from by omega]

/-! ## Lemmas about the ASCII/binary fallback driver -/

/-- One unfolding step of the driver on the ASCII side. -/
theorem stlTry_step_ascii (gas : Nat) (data : BlobData) (v : ViewerFlags) :
    stlTry true (gas + 1) data v =
      (if v.attemptedASCII_STL then (v, [])
       else match stl_ascii_onload data.text with
         | .ok evs => (v, evs)
         | .error _ => stlTry false gas data { v with attemptedASCII_STL := true }) := rfl

/-- One unfolding step of the driver on the binary side. -/
theorem stlTry_step_binary (gas : Nat) (data : BlobData) (v : ViewerFlags) :
    stlTry false (gas + 1) data v =
      (if v.attemptedBINARY_STL then (v, [])
       else match stl_binary_onload data.bytes with
         | .ok evs => (v, evs)
         | .error _ => stlTry true gas data { v with attemptedBINARY_STL := true }) := rfl

/-- Rows of nine NaN cells concatenate to a replicate. -/
theorem flatMap_replicate_const (x : MeshVal) :
    ∀ (l : List Nat), l.flatMap (fun _ => List.replicate 9 x) = List.replicate (9 * l.length) x := by
  intro l
  induction l with
  | nil => simp
  | cons i l ih =>
    simp only [List.flatMap_cons, ih, List.length_cons]
    rw [show 9 * (l.length + 1) = 9 + 9 * l.length from by ring, List.replicate_add]

/-! ## The claims -/

/-- C1: the claim says every valid STL-ASCII input with `N` triangles yields a
`9 N`-float vertex buffer, and in particular the minimal one-triangle file
parses to its 9 literal coordinates.  On the code, the first `runBatch` loop
unconditionally processes `PER_BATCH = 500` triangle indices, so on the
minimal valid file (10 split lines, `triCount = 1`) `getTriangle(1)` reads
`splice[10]` (`undefined`), `.split` throws, and the ASCII sub-parser falls
back to binary instead of emitting anything. -/
theorem ascii_minimal_triangle_falls_back :
    (jsSplit '\n' minStlText).length = 10 ∧ stl_ascii_onload minStlText = .error () := by
  exact ⟨by decide, by decide⟩

/-- C2 (counterexample): a blob that fails both STL sub-parsers ends with both
attempt flags set and an empty host-visible event list — no
`UnrecognizedOrCorruptStl` (or any other) error is surfaced to the host, the
parse just goes silent; `viewer.display` is the code's only host callback and
it is never invoked. -/
theorem stl_double_failure_silent_cex :
    stl_ascii corruptBlob ⟨false, false⟩ = (⟨true, true⟩, []) ∧
    stl_binary corruptBlob ⟨false, false⟩ = (⟨true, true⟩, []) := by
  exact ⟨by decide, by decide⟩

/-- C2 (amended): if both STL sub-formats fail on the same attempt state, the
parse terminates silently — both flags become true and nothing is delivered to
the host (the code has no error channel) — and any further call of either STL
sub-parser with that attempt state is a no-op that leaves the state unchanged
and delivers nothing. -/
theorem stl_double_failure_amended (data : BlobData)
    (hA : stl_ascii_onload data.text = .error ())
    (hB : stl_binary_onload data.bytes = .error ()) :
    stl_ascii data ⟨false, false⟩ = (⟨true, true⟩, []) ∧
    stl_binary data ⟨false, false⟩ = (⟨true, true⟩, []) ∧
    stl_ascii data ⟨true, true⟩ = (⟨true, true⟩, []) ∧
    stl_binary data ⟨true, true⟩ = (⟨true, true⟩, []) := by
  refine ⟨?_, ?_, ?_, ?_⟩
  · show stlTry true (2 + 1) data ⟨false, false⟩ = _
    rw [stlTry_step_ascii]
    simp only [hA]
    show stlTry false (1 + 1) data ⟨true, false⟩ = _
    rw [stlTry_step_binary]
    simp only [hB]
    show stlTry true (0 + 1) data ⟨true, true⟩ = _
    rw [stlTry_step_ascii]
    simp
  · show stlTry false (2 + 1) data ⟨false, false⟩ = _
    rw [stlTry_step_binary]
    simp only [hB]
    show stlTry true (1 + 1) data ⟨false, true⟩ = _
    rw [stlTry_step_ascii]
    simp only [hA]
    show stlTry false (0 + 1) data ⟨true, true⟩ = _
    rw [stlTry_step_binary]
    simp
  · show stlTry true (2 + 1) data ⟨true, true⟩ = _
    rw [stlTry_step_ascii]
    simp
  · show stlTry false (2 + 1) data ⟨true, true⟩ = _
    rw [stlTry_step_binary]
    simp

/-- C2 (witness): the no-op clauses of the amended claim at a concrete
double-failing blob. -/
theorem stl_double_failure_amended_witness :
    stl_ascii corruptBlob ⟨true, true⟩ = (⟨true, true⟩, []) ∧
    stl_binary corruptBlob ⟨true, true⟩ = (⟨true, true⟩, []) :=
  ⟨(stl_double_failure_amended corruptBlob (by decide) (by decide)).2.2.1,
   (stl_double_failure_amended corruptBlob (by decide) (by decide)).2.2.2⟩

set_option maxRecDepth 8000

/-- C3 (counterexample): the claim says every input with
`84 + 50·triCount > bufferLength` is a structural failure that sets
`triedBinaryStl` and falls back to ASCII without emitting a MeshBuffer.  On
the 84-byte buffer declaring one triangle, the code instead emits a MeshBuffer
of nine NaN cells (every record read clamps to an empty, 4-aligned slice) and
leaves both attempt flags untouched. -/
theorem binary_inconsistent_count_emits_cex :
    shortBin84.length < 84 + 50 * 1 ∧
    stl_binary ⟨"x", shortBin84⟩ ⟨false, false⟩
    = (⟨false, false⟩, [.batch (List.range' 0 500), .batch (List.range' 500 1),
         .display (List.replicate 9 MeshVal.nan)]) := by
  refine ⟨by decide, ?_⟩
  have hlen : shortBin84.length = 84 := by decide
  have hhdr := header_count shortBin84 (by rw [hlen])
  have hrun := stl_binary_onload_rows shortBin84 1 hhdr.1
    (by rw [hhdr.2, show w32 shortBin84 80 = 1 from by decide])
    (fun _ => List.replicate 9 MeshVal.nan) (fun _ => by simp)
    (fun i => binaryGetTriangle_empty shortBin84 i (by rw [hlen]; omega))
  simp only [PER_BATCH] at hrun
  norm_num at hrun
  show stlTry false (2 + 1) ⟨"x", shortBin84⟩ ⟨false, false⟩ = _
  rw [stlTry_step_binary]
  simp only [hrun]
  norm_num

/-- C3 (amended): the binary sub-parser performs no declared-count versus
buffer-length consistency check.  When every record slice the batch loop
touches clamps to a 4-divisible byte length (first clause: any 84-byte buffer,
whatever count `n` its bytes 80–83 declare), the parse emits a MeshBuffer of
`9 n` NaN cells and leaves `triedBinaryStl` false; only when some touched
slice clamps to a non-4-divisible length (second clause: a 97-byte buffer)
does the parse throw, set `triedBinaryStl = true`, and fall back to the ASCII
sub-parser. -/
theorem binary_no_consistency_check_amended :
    (∀ (t : String) (arr : List Nat) (n : Nat), arr.length = 84 → w32 arr 80 = n →
       stl_binary ⟨t, arr⟩ ⟨false, false⟩
       = (⟨false, false⟩,
          ((List.range' 0 (max (n / PER_BATCH) 1)).map
              (fun b => StlEv.batch (List.range' (PER_BATCH * b) PER_BATCH)))
          ++ [.batch (List.range' (PER_BATCH * max (n / PER_BATCH) 1)
                (n - n / PER_BATCH * PER_BATCH)),
              .display (List.replicate (9 * n) MeshVal.nan)])) ∧
    stl_binary ragged97 ⟨false, false⟩ = (⟨true, true⟩, []) := by
  constructor
  · intro t arr n hlen hw
    have hhdr := header_count arr (by rw [hlen])
    have hrun := stl_binary_onload_rows arr n hhdr.1 (by rw [hhdr.2, hw])
      (fun _ => List.replicate 9 MeshVal.nan) (fun _ => by simp)
      (fun i => binaryGetTriangle_empty arr i (by rw [hlen]; omega))
    rw [flatMap_replicate_const MeshVal.nan, List.length_range'] at hrun
    show stlTry false (2 + 1) ⟨t, arr⟩ ⟨false, false⟩ = _
    rw [stlTry_step_binary]
    simp only [hrun]
    norm_num
  · decide

/-- C3 (witness): the first clause of the amended claim at an 84-byte buffer
declaring two triangles: the parse emits 18 NaN cells and does not fall back. -/
theorem binary_no_consistency_check_witness :
    countTwoBin.length = 84 ∧ w32 countTwoBin 80 = 2 ∧
    stl_binary ⟨"", countTwoBin⟩ ⟨false, false⟩
    = (⟨false, false⟩,
       ((List.range' 0 (max (2 / PER_BATCH) 1)).map
           (fun b => StlEv.batch (List.range' (PER_BATCH * b) PER_BATCH)))
       ++ [.batch (List.range' (PER_BATCH * max (2 / PER_BATCH) 1)
             (2 - 2 / PER_BATCH * PER_BATCH)),
           .display (List.replicate (9 * 2) MeshVal.nan)]) :=
  ⟨by decide, by decide,
   binary_no_consistency_check_amended.1 "" countTwoBin 2 (by decide) (by decide)⟩

/-- C4 (amended): for every well-formed binary STL input — `n` triangles
declared at bytes [80,84) as an unsigned 32-bit little-endian integer
(`w32 arr 80`), buffer length exactly `84 + 50 n` — the parse succeeds and the
displayed buffer holds, for each triangle `i` in order, the row
`binRow arr i`: the 9 words of bytes `[96 + 50 i, 132 + 50 i)`, i.e. bytes
12…47 of the 50-byte record — skipping the record's leading 12-byte normal
and ignoring its trailing 2 attribute bytes (and not, as the claim puts it,
the record's first 36 bytes). -/
theorem binary_vertex_offset_amended (arr : List Nat) (n : Nat)
    (hlen : arr.length = 84 + 50 * n) (hcnt : w32 arr 80 = n) :
    stl_binary_onload arr
    = .ok (((List.range' 0 (max (n / PER_BATCH) 1)).map
              (fun b => StlEv.batch (List.range' (PER_BATCH * b) PER_BATCH)))
           ++ [.batch (List.range' (PER_BATCH * max (n / PER_BATCH) 1)
                  (n - n / PER_BATCH * PER_BATCH)),
               .display ((List.range' 0 n).flatMap (binRow arr))]) := by
  have hhdr := header_count arr (by omega)
  have hrun := stl_binary_onload_rows arr n hhdr.1 (by rw [hhdr.2, hcnt])
    (fun i => if i < n then binRow arr i else List.replicate 9 MeshVal.nan)
    (by
      intro i
      by_cases hi : i < n
      · simp [hi, binRow]
      · simp [hi])
    (by
      intro i
      by_cases hi : i < n
      · simp only [hi, ite_true]
        exact binaryGetTriangle_full arr i (by omega)
      · simp only [hi, ite_false]
        exact binaryGetTriangle_empty arr i (by omega))
  rw [hrun]
  have hcong : (List.range' 0 n).flatMap
        (fun i => if i < n then binRow arr i else List.replicate 9 MeshVal.nan)
      = (List.range' 0 n).flatMap (binRow arr) := by
    apply List.flatMap_congr
    intro i hi
    have h2 := (List.mem_range'_1.mp hi).2
    simp [show i < n from by omega]
  rw [hcong]

/-- C4 (counterexample): on the one-record file `oneTriBin` (record byte at
offset `j` equals `j`) the parse succeeds and displays the row read from bytes
`[96, 132)` — and that row differs from `specRecordWords oneTriBin 0`, the
"first 36 bytes of the 50-byte record beginning at byte 84" reading that the
claim describes. -/
theorem binary_vertex_offset_cex :
    stl_binary_onload oneTriBin
    = .ok [.batch (List.range' 0 500), .batch (List.range' 500 1),
           .display (binRow oneTriBin 0)] ∧
    binRow oneTriBin 0 ≠ specRecordWords oneTriBin 0 := by
  constructor
  · have hhdr := header_count oneTriBin (by decide)
    have hrun := stl_binary_onload_rows oneTriBin 1 hhdr.1
      (by rw [hhdr.2, show w32 oneTriBin 80 = 1 from by decide])
      (fun i => if i < 1 then binRow oneTriBin i else List.replicate 9 MeshVal.nan)
      (by
        intro i
        by_cases hi : i < 1
        · simp [hi, binRow]
        · simp [hi])
      (by
        intro i
        by_cases hi : i < 1
        · simp only [hi, ite_true]
          exact binaryGetTriangle_full oneTriBin i (by
            have : oneTriBin.length = 134 := by decide
            omega)
        · simp only [hi, ite_false]
          exact binaryGetTriangle_empty oneTriBin i (by
            have : oneTriBin.length = 134 := by decide
            omega))
    simp only [PER_BATCH] at hrun
    norm_num at hrun
    rw [hrun]
    simp [List.range'_one]
  · decide

/-- C4 (witness): the amended claim at a concrete one-record file whose record
bytes are all 7. -/
theorem binary_vertex_offset_witness :
    oneTriBinW.length = 84 + 50 * 1 ∧ w32 oneTriBinW 80 = 1 ∧
    stl_binary_onload oneTriBinW
    = .ok (((List.range' 0 (max (1 / PER_BATCH) 1)).map
              (fun b => StlEv.batch (List.range' (PER_BATCH * b) PER_BATCH)))
           ++ [.batch (List.range' (PER_BATCH * max (1 / PER_BATCH) 1)
                  (1 - 1 / PER_BATCH * PER_BATCH)),
               .display ((List.range' 0 1).flatMap (binRow oneTriBinW))]) :=
  ⟨by decide, by decide, binary_vertex_offset_amended oneTriBinW 1 (by decide) (by decide)⟩

/-- C5: the claim says each of the three vertex lines contributes its own last
three whitespace tokens, tolerating extra leading tokens on any line
independently.  On `skewStlLines` (third vertex line `"x vertex 7 8 9"`, the
others 4-token), the code's crossed reads `v2[v3.length-1]` and
`v3[v2.length-3]` instead store `undefined` (NaN) at offset 5 and the marker
token `"vertex"` at offset 6, not `"6"` and `"7"`. -/
theorem ascii_crossed_line_lengths_bug :
    asciiGetTriangle skewStlLines 0
    = .ok [(0, .tok "1"), (1, .tok "2"), (2, .tok "3"),
           (3, .tok "4"), (4, .tok "5"), (5, MeshVal.nan),
           (6, .tok "vertex"), (7, .tok "8"), (8, .tok "9")] ∧
    asciiGetTriangle skewStlLines 0
    ≠ .ok [(0, .tok "1"), (1, .tok "2"), (2, .tok "3"),
           (3, .tok "4"), (4, .tok "5"), (5, .tok "6"),
           (6, .tok "7"), (7, .tok "8"), (8, .tok "9")] := by
  exact ⟨by decide, by decide⟩

/-- C6: batching at `triCount = 1250`.  First clause: for any exception-free
`getTriangle` writing the row of triangle `i` at cells `9i … 9i+8` (the shape
both sub-parsers' `getTriangle` has), the run with `batchLimit = 2` and
`remainder = 250` executes exactly two full 500-triangle batch loops and one
final 250-triangle batch loop, in strictly increasing triangle-index order,
and then hands the buffer to `viewer.display` exactly once — after the final
partial batch — holding all 1250 triangle rows in original order.  Second
clause: the ASCII sub-parser on any 8753-line split (`triCount = 1250`) is
exactly that run. -/
theorem stl_batching_1250 :
    (∀ val : Nat → Nat → MeshVal,
      runBatchAux (fun i => Except.ok
          [(9 * i, val i 0), (9 * i + 1, val i 1), (9 * i + 2, val i 2),
           (9 * i + 3, val i 3), (9 * i + 4, val i 4), (9 * i + 5, val i 5),
           (9 * i + 6, val i 6), (9 * i + 7, val i 7), (9 * i + 8, val i 8)])
        250 2 0 (List.replicate 11250 (MeshVal.word 0))
      = .ok [.batch (List.range' 0 500), .batch (List.range' 500 500),
             .batch (List.range' 1000 250),
             .display ((List.range' 0 1250).flatMap
                 (fun i => (List.range 9).map (val i)))]) ∧
    (∀ splice : List String, splice.length = 8753 →
      stl_ascii_lines splice
      = runBatchAux (asciiGetTriangle splice) 250 2 0 (List.replicate 11250 (MeshVal.word 0))) := by
  constructor
  · intro val
    have hrw := runBatchAux_ok
      (fun i => Except.ok
          [(9 * i, val i 0), (9 * i + 1, val i 1), (9 * i + 2, val i 2),
           (9 * i + 3, val i 3), (9 * i + 4, val i 4), (9 * i + 5, val i 5),
           (9 * i + 6, val i 6), (9 * i + 7, val i 7), (9 * i + 8, val i 8)])
      (fun i => List.enumFrom (9 * i) ((List.range 9).map (val i)))
      (fun i => rfl) 250 2 0 (List.replicate 11250 (MeshVal.word 0))
    rw [hrw]
    have hfold := tri_writes (fun i => (List.range 9).map (val i)) (fun i => by simp)
      (MeshVal.word 0) 1250 0 [] (by simp)
    simp only [List.nil_append] at hfold
    simp only [PER_BATCH]
    rw [show max (2 : Nat) 1 = 2 from rfl, show List.range' 0 2 = [0, 1] from rfl]
    norm_num
    rw [show (11250 : Nat) = 9 * 1250 from rfl, hfold]
  · intro splice h
    unfold stl_ascii_lines
    rw [if_pos (by rw [h]; norm_num)]
    rw [h]
    simp only [PER_BATCH]

/-- C6 (witness): the first clause at the row values `val i k = word k` and
the second clause at a concrete 8753-line split. -/
theorem stl_batching_1250_witness :
    (runBatchAux (fun i => Except.ok
          [(9 * i, MeshVal.word 0), (9 * i + 1, MeshVal.word 1),
           (9 * i + 2, MeshVal.word 2), (9 * i + 3, MeshVal.word 3),
           (9 * i + 4, MeshVal.word 4), (9 * i + 5, MeshVal.word 5),
           (9 * i + 6, MeshVal.word 6), (9 * i + 7, MeshVal.word 7),
           (9 * i + 8, MeshVal.word 8)])
        250 2 0 (List.replicate 11250 (MeshVal.word 0))
      = .ok [.batch (List.range' 0 500), .batch (List.range' 500 500),
             .batch (List.range' 1000 250),
             .display ((List.range' 0 1250).flatMap
                 (fun _ => (List.range 9).map (fun k => MeshVal.word k)))]) ∧
    ((List.replicate 8753 "x").length = 8753 ∧
      stl_ascii_lines (List.replicate 8753 "x")
      = runBatchAux (asciiGetTriangle (List.replicate 8753 "x")) 250 2 0
          (List.replicate 11250 (MeshVal.word 0))) :=
  ⟨stl_batching_1250.1 (fun _ k => MeshVal.word k),
   List.length_replicate 8753 "x",
   stl_batching_1250.2 (List.replicate 8753 "x") (List.length_replicate 8753 "x")⟩

/-- C7: the claim says a quad face `f 1 2 3 4` fan-triangulates to
`[0,1,2, 0,2,3]`.  The code's loop `for (i = 1; i < arr.length - 1; i++)`
never visits the line's final token, so the quad yields just `[0, 1, 2]` and
no fan triangle is emitted. -/
theorem obj_quad_face_drops_last_corner :
    (parseOBJState "f 1 2 3 4").faces = [some 0, some 1, some 2] ∧
    (parseOBJState "f 1 2 3 4").faces ≠ [some 0, some 1, some 2, some 0, some 2, some 3] := by
  with_unfolding_all exact ⟨by decide, by decide⟩

/-- C8: negative-index resolution in `parseFace`.  First clause: the
adjustment applied to a negative index against a flat coordinate list of
`3 V` floats is exactly `idx + V + 1` (i.e. `idx + length/3 + 1`).  Second
clause: a face corner token `-1 / -1` (vertex and uv component both `-1`), parsed in a state with `V` vertices
(`3 V` floats) and `U` uv records (`3 U` floats) already read, appends the
0-based vertex index `V - 1` to `faces` and, by the same rule applied
independently against the uv count, `U - 1` to `uvfaces`. -/
theorem obj_negative_index_resolution :
    (∀ (V : Nat) (idx : Int), idx < 0 → relIndex (3 * V) idx = (idx : ℚ) + (V : ℚ) + 1) ∧
    (∀ (st : ObjState) (V U : Nat) (i : Nat), st.vertices.length = 3 * V →
        st.uvs.length = 3 * U → i ≤ 3 →
        faceStep st (i, "-1/-1")
        = { st with faces := st.faces ++ [some ((V : ℚ) - 1)],
                    uvfaces := st.uvfaces ++ [some ((U : ℚ) - 1)] }) := by
  have hrel : ∀ (W : Nat), relIndex (3 * W) (-1) = (W : ℚ) := by
    intro W
    unfold relIndex
    rw [if_pos (by norm_num)]
    push_cast
    ring
  constructor
  · intro V idx h
    unfold relIndex
    rw [if_pos h]
    push_cast
    ring
  · intro st V U i hv hu hi
    unfold faceStep
    dsimp only
    rw [show jsSplit '/' "-1/-1" = ["-1", "-1"] from by decide]
    rw [show jsParseIntOpt (["-1", "-1"][0]?) = some (-1) from by decide,
        show jsParseIntOpt (["-1", "-1"][1]?) = some (-1) from by decide]
    dsimp only
    rw [if_neg (show ¬ 3 < i from by omega), if_neg (show ¬ 3 < i from by omega)]
    rw [hv, hu, hrel V]
    simp [hrel U]

/-- C8 (witness): the second clause at a concrete state with one vertex and
one uv record. -/
theorem obj_negative_index_resolution_witness :
    objStW.vertices.length = 3 * 1 ∧ objStW.uvs.length = 3 * 1 ∧
    faceStep objStW (1, "-1/-1")
    = { objStW with faces := objStW.faces ++ [some ((1 : ℚ) - 1)],
                    uvfaces := objStW.uvfaces ++ [some ((1 : ℚ) - 1)] } :=
  ⟨by decide, by decide,
   obj_negative_index_resolution.2 objStW 1 1 1 (by decide) (by decide) (by omega)⟩

/-- C9: the claim says the emitted MeshBuffer's `uvs` is the flat list of
floats from the `vt` records.  On `objUvText` the single `viewer.display` call
instead receives the resolved uv-face index list `uvfaces` (`[0, 0]`) as its
`uvs` argument, while the collected `vt` floats (`[1/4, 1/2, 3/4]`) are
discarded (the emitted list does not even have the float list's length);
`vertices`, `faceIndices` and the absent `colors` are as the claim says. -/
theorem obj_uvs_argument_is_uvface_list :
    parseOBJ objUvText
    = [.display { vertices := [.num 1, .num 2, .num 3], name := none,
                  faceIndices := [some 0, some 0], colors := none,
                  uvs := [some 0, some 0] }] ∧
    (parseOBJState objUvText).uvs = [.num (1/4 : ℚ), .num (1/2 : ℚ), .num (3/4 : ℚ)] ∧
    (parseOBJState objUvText).uvfaces.length ≠ (parseOBJState objUvText).uvs.length := by
  with_unfolding_all exact ⟨by decide, by decide, by decide⟩

/-- C10: the OBJ parser signals no error.  First clause: on every input text
it invokes `viewer.display` exactly once (its only host callback; the parse is
total).  Second clause: a face corner token whose vertex-index component does
not parse as a number leaves the state untouched — skipped, not reported.
Third clause: a token that `parseFloat` rejects contributes nothing to a
vertex/uv record's float list (the lists are `filterMap jsParseFloat` of the
line's tokens). -/
theorem obj_parser_total_and_skipping :
    (∀ s : String, ∃ d, parseOBJ s = [ObjEv.display d]) ∧
    (∀ (st : ObjState) (i : Nat) (tok : String),
        jsParseIntOpt (jsSplit '/' tok)[0]? = none → faceStep st (i, tok) = st) ∧
    (∀ (pre post : List String) (tok : String), jsParseFloat tok = none →
        (pre ++ tok :: post).filterMap jsParseFloat
        = (pre ++ post).filterMap jsParseFloat) := by
  refine ⟨fun s => ⟨_, rfl⟩, ?_, ?_⟩
  · intro st i tok h
    unfold faceStep
    dsimp only
    rw [h]
  · intro pre post tok h
    simp [List.filterMap_append, List.filterMap_cons, h]

/-- C10 (witness): the clauses at a vertex line with a non-numeric token and a
face token with a non-numeric vertex component. -/
theorem obj_parser_total_and_skipping_witness :
    (∃ d, parseOBJ "v 1 x 2" = [ObjEv.display d]) ∧
    faceStep ObjState.init (1, "x") = ObjState.init ∧
    (["v", "x", "2"].filterMap jsParseFloat = ["v", "2"].filterMap jsParseFloat) :=
  ⟨obj_parser_total_and_skipping.1 "v 1 x 2",
   obj_parser_total_and_skipping.2.1 ObjState.init 1 "x" (by decide),
   obj_parser_total_and_skipping.2.2 ["v"] ["2"] "x" (by decide)⟩
